import Mathlib

/-!
Verification development for the pixelbox crawl-hash-store pipeline and
similarity-query engine (src/engine.rs, src/crawler.rs, src/indexed_image.rs).

Shallow embedding conventions:
* Rust `u8` bytes are `Nat` (with `≤ 255` hypotheses where a bound matters);
  `u8` wrap-around that occurs in the source is made explicit with `% 256`.
* Rust `String`/`PathBuf` values are `List Char`.
* `f32`/`f64` arithmetic is idealized: exact rational results use `ℚ`,
  and `cosine_distance` (whose source uses `sqrt`) is modelled over `ℝ`.
* SQLite tables are lists of rows; `ORDER BY dist ASC` with a single sort
  key guarantees only a non-decreasing arrangement, so query outputs are
  described by a relation (`isHashQueryOutput`, `isTextQueryOutput`) that
  quantifies over every permutation SQLite may legally return.
-/

namespace Pixelbox

/-! ## Tokenizer (engine.rs, `tokenize_query`, lines 471-525)

The source iterates over the characters of the query with mutable state
`next_character_escaped`, `quote_active`, `active_string`, `spans`.
`tokenizeGo` carries that state through a structural recursion; the
end-of-input checks mirror lines 513-524 (open-quote error first, then
trailing-escape error, then the final non-empty `active_string` push). -/

/-- Errors of `tokenize_query`: the source returns `anyhow` errors with the
messages "trailing open-quote." and "trailing escape character." -/
inductive TokError where
  | trailingOpenQuote
  | trailingEscape
deriving DecidableEq

def tokenizeGo : List Char → Bool → Bool → List Char → List (List Char) → Except TokError (List (List Char))
  | [], esc, qt, active, spans =>
      if qt then Except.error TokError.trailingOpenQuote
      else if esc then Except.error TokError.trailingEscape
      else if active = [] then Except.ok spans
      else Except.ok (spans ++ [active])
  | c :: rest, esc, qt, active, spans =>
      if esc then tokenizeGo rest false qt (active ++ [c]) spans
      else if c = '"' then
        (if qt then tokenizeGo rest false false [] (spans ++ [active])
         else tokenizeGo rest false true active spans)
      else if c = '\\' then tokenizeGo rest true qt active spans
      else if c = ' ' then
        (if qt then tokenizeGo rest false true (active ++ [' ']) spans
         else if active = [] then tokenizeGo rest false false [] spans
         else tokenizeGo rest false false [] (spans ++ [active]))
      else tokenizeGo rest esc qt (active ++ [c]) spans

/-- `tokenize_query` (engine.rs:471): scan starting from the all-clear state. -/
def tokenize_query (q : List Char) : Except TokError (List (List Char)) :=
  tokenizeGo q false false [] []

/-- Splitting on the space character, dropping empty words: the reference
behaviour of the tokenizer on inputs without quotes and backslashes
(`acc` is the word being accumulated). -/
def splitAux : List Char → List Char → List (List Char)
  | [], acc => if acc = [] then [] else [acc]
  | c :: rest, acc =>
      if c = ' ' then
        (if acc = [] then splitAux rest [] else acc :: splitAux rest [])
      else splitAux rest (acc ++ [c])

def splitOnSpace (cs : List Char) : List (List Char) := splitAux cs []

/-! ## Distance functions (engine.rs, lines 592-624) -/

/-- The bit-counting loop of `hamming_distance`
(`while diff != 0 { bits_set += diff & 1; diff >>= 1 }`), written with a
structural fuel so that it evaluates in the kernel.  The value halves each
iteration, so fuel `n` always suffices for input `n`. -/
def popcountGo : ℕ → ℕ → ℕ
  | 0, _ => 0
  | _ + 1, 0 => 0
  | fuel + 1, d + 1 => (d + 1) % 2 + popcountGo fuel ((d + 1) / 2)

def popcount (n : ℕ) : ℕ := popcountGo n n

/-- `hamming_distance` (engine.rs:614-624).  The source accumulates the
per-byte popcounts with `.sum::<u8>()`: a `u8` accumulator, whose release
build semantics wrap modulo 256 (a debug build panics on overflow).  The
wrapping fold below makes that explicit; the final `as f32` division is
idealized over `ℚ`. -/
def hamming_distance (a b : List ℕ) : ℚ :=
  ((((a.zip b).map (fun p => popcount (Nat.xor p.1 p.2))).foldl
      (fun acc x => (acc + x) % 256) 0 : ℕ) : ℚ) / (8 * (a.length : ℚ))

/-- The specified hamming distance (spec 4.1): the exact popcount sum,
with no 8-bit wrap, divided by `8 * len`.  Kept separate so it can be
compared against the source's `hamming_distance`. -/
def hammingSpec (a b : List ℕ) : ℚ :=
  ((((a.zip b).map (fun p => popcount (Nat.xor p.1 p.2))).sum : ℕ) : ℚ) /
    (8 * (a.length : ℚ))

/-- `u8_to_float` (engine.rs:595-597): `((v as f32 / 255.0) * 2.0) - 1.0`. -/
noncomputable def u8ToFloat (v : ℕ) : ℝ := ((v : ℝ) / 255) * 2 - 1

/-- `fold(0f32, |initial, x| initial + x*x)` (engine.rs:600-601). -/
noncomputable def sumSquares (l : List ℝ) : ℝ := l.foldl (fun init x => init + x * x) 0

/-- One factor of `magnitude` (engine.rs:601): `fold(0, mag_op).sqrt()`. -/
noncomputable def sqrtMag (a : List ℕ) : ℝ := Real.sqrt (sumSquares (a.map u8ToFloat))

/-- `magnitude` (engine.rs:601): the product of the two square-rooted sums. -/
noncomputable def magnitudeProd (a b : List ℕ) : ℝ := sqrtMag a * sqrtMag b

/-- `dot` (engine.rs:605): fold of pairwise products over the zipped vectors. -/
noncomputable def dotProd (a b : List ℕ) : ℝ :=
  ((a.map u8ToFloat).zip (b.map u8ToFloat)).foldl (fun init p => init + p.1 * p.2) 0

/-- `cosine_distance` (engine.rs:592-608), with `f32` idealized over `ℝ`
and the literal `1e-6` written `1 / 1000000`. -/
noncomputable def cosine_distance (a b : List ℕ) : ℝ :=
  if magnitudeProd a b < 1 / 1000000 then 0
  else 1 / max (dotProd a b / magnitudeProd a b) (1 / 1000000) - 1

/-! ## Data model (indexed_image.rs `IndexedImage`; engine.rs schemas, lines 35-65)

The SQLite tables become lists of rows.  The `created`/`indexed` columns
are never written by `insert_image` (its INSERT names only seven columns)
and the corresponding `IndexedImage` fields are wall-clock `Instant`s, so
both are omitted.  `tags: HashMap<String,String>` becomes an association
list. -/

/-- A row of the `images` table (engine.rs:35-46).  `id` is the SQLite
rowid (`INTEGER PRIMARY KEY`). -/
structure ImageRow where
  id : ℕ
  filename : List Char
  path : List Char
  image_width : ℕ
  image_height : ℕ
  thumbnail : List ℕ
  thumbnail_width : ℕ
  thumbnail_height : ℕ
deriving DecidableEq

/-- A row of the `tags` table (engine.rs:47-51). -/
structure TagRow where
  image_id : ℕ
  name : List Char
  value : List Char
deriving DecidableEq

/-- `IndexedImage` (indexed_image.rs:16-33, plus the `thumbnail_resolution`
field that engine.rs reads and writes).  `distance_from_query` is the
transient `Option<f64>` set only on query results, idealized over `ℝ`. -/
structure IndexedImage where
  id : ℕ
  filename : List Char
  path : List Char
  resolution : ℕ × ℕ
  thumbnail : List ℕ
  thumbnail_resolution : ℕ × ℕ
  tags : List (List Char × List Char)
  phash : Option (List ℕ)
  visual_hash : Option (List ℕ)
  distance_from_query : Option ℝ

/-- The database: `images`, `tags`, the two identically-shaped hash tables
(`phashes`, `semantic_hashes`, each `image_id PRIMARY KEY, hash BLOB`),
and `watched_directories` (engine.rs:35-53). -/
structure DB where
  images : List ImageRow
  tags : List TagRow
  phashes : List (ℕ × List ℕ)
  semantic_hashes : List (ℕ × List ℕ)
  watched_directories : List (List Char)

def emptyDB : DB := ⟨[], [], [], [], []⟩

/-! ## Store operations (engine.rs `insert_image` lines 252-283, and the
drain loop of `start_reindexing`, lines 220-247) -/

/-- The rowid SQLite assigns to a fresh `INSERT` into `images` (returned
by `last_insert_rowid`): one more than the largest rowid in the table. -/
def nextRowId (db : DB) : ℕ := (db.images.foldl (fun m r => max m r.id) 0) + 1

/-- `Engine::insert_image` (engine.rs:252-283): unconditionally INSERTs the
base row (there is no UNIQUE constraint on `path` in `IMAGE_SCHEMA_V1`),
then the tag rows, then one row per present hash. -/
def insert_image (db : DB) (img : IndexedImage) : DB :=
  let newId := nextRowId db
  { db with
    images := db.images ++
      [⟨newId, img.filename, img.path, img.resolution.1, img.resolution.2,
        img.thumbnail, img.thumbnail_resolution.1, img.thumbnail_resolution.2⟩],
    tags := db.tags ++ img.tags.map (fun t => ⟨newId, t.1, t.2⟩),
    phashes := db.phashes ++
      (match img.phash with | some h => [(newId, h)] | none => []),
    semantic_hashes := db.semantic_hashes ++
      (match img.visual_hash with | some h => [(newId, h)] | none => []) }

/-- `SELECT 1 FROM images WHERE path = ?` followed by `stmt.exists`
(engine.rs:227-228). -/
def existsByPath (db : DB) (p : List Char) : Bool :=
  db.images.any (fun r => r.path == p)

/-- Number of persisted `images` rows whose `path` equals `p`. -/
def countPath (db : DB) (p : List Char) : ℕ :=
  (db.images.filter (fun r => r.path == p)).length

/-- One iteration of the drain loop of `start_reindexing`
(engine.rs:223-245): check existence by path under the lock and insert
only when absent (an already-present path is dropped silently). -/
def drainStep (db : DB) (img : IndexedImage) : DB :=
  if existsByPath db img.path then db else insert_image db img

/-! ## Query predicate building (engine.rs `build_where_clause_from_parsed_query`,
lines 527-585) and the `similar:` reference cache -/

/-- ASCII lower-casing of one character, as used by
`eq_ignore_ascii_case` and (on the ASCII prefixes that matter here)
`to_lowercase`. -/
def lowerChar (c : Char) : Char :=
  if 'A' ≤ c ∧ c ≤ 'Z' then Char.ofNat (c.toNat + 32) else c

def lowerStr (cs : List Char) : List Char := cs.map lowerChar

/-- `str::eq_ignore_ascii_case` (engine.rs:550): equality after ASCII
case-folding (which in particular forces equal lengths). -/
def eqIgnoreAsciiCase (a b : List Char) : Bool := lowerStr a == lowerStr b

/-- `str::split_once(':')` (engine.rs:533): split at the first colon, or
`none` when the token has no colon. -/
def splitOnce : List Char → Option (List Char × List Char)
  | [] => none
  | c :: rest =>
      if c = ':' then some ([], rest)
      else match splitOnce rest with
        | some (pre, post) => some (c :: pre, post)
        | none => none

/-- The `similar:` branch of `build_where_clause_from_parsed_query`
(engine.rs:538-562).  `needs_recalculation` starts false, is set when no
reference is cached, and is set when the cached reference's path differs
case-insensitively from the requested path; only then is
`IndexedImage::from_file_path` (the embedding collaborator) invoked and
the cache overwritten with its result.  The returned `Bool` records
whether that invocation happened. -/
def processSimilarToken (cached : Option IndexedImage) (remaining : List Char)
    (load : List Char → Option IndexedImage) : Option IndexedImage × Bool :=
  let needs1 : Bool := cached.isNone
  let needs2 : Bool :=
    match cached with
    | some img => !(eqIgnoreAsciiCase img.path remaining)
    | none => false
  if needs1 || needs2 then (load remaining, true) else (cached, false)

/-- Effect of one token of the builder's loop on the cached reference:
only a `similar:` prefix (after `to_lowercase`) touches it. -/
def updateSimilarCacheStep (load : List Char → Option IndexedImage)
    (cached : Option IndexedImage) (token : List Char) : Option IndexedImage :=
  match splitOnce token with
  | some (pre, remaining) =>
      if lowerStr pre = ("similar".toList) then (processSimilarToken cached remaining load).1
      else cached
  | none => cached

/-- The cache effect of the whole token loop (engine.rs:532-582). -/
def updateSimilarCache (load : List Char → Option IndexedImage)
    (tokens : List (List Char)) (cached : Option IndexedImage) : Option IndexedImage :=
  tokens.foldl (updateSimilarCacheStep load) cached

/-- Whether a token pushes a clause onto `and_where_clauses`
(engine.rs:531-582): `exif:` and `filename:` prefixes push one clause,
bare tokens push the full-text clause, and every other prefixed token —
including `similar:` and unrecognized prefixes — pushes nothing. -/
def tokenAddsClause (token : List Char) : Bool :=
  match splitOnce token with
  | some (pre, _) =>
      lowerStr pre == ("exif".toList) || lowerStr pre == ("filename".toList)
  | none => true

/-- When no token pushes a clause, `and_where_clauses.join(" AND ")` is
empty and the assembled statement reads `WHERE  GROUP BY`, which fails to
prepare. -/
def whereClauseEmpty (tokens : List (List Char)) : Bool :=
  !(tokens.any tokenAddsClause)

/-! ## Query execution (engine.rs `Engine::query` lines 285-377 and
`Engine::query_by_image_hash_from_image` lines 390-422)

The WHERE clause built from the tokens only ever filters rows of the
joined tables; its substring-match semantics are abstracted as a boolean
predicate `pred` over an `images` row and one row of the LEFT JOINed
`tags` table (`none` for an image with no tags). -/

/-- `LEFT JOIN tags` + `WHERE` + `GROUP BY images.id`: an image survives
the filter when some of its join rows does (the row with a NULL tag side
when the image has no tags). -/
def rowMatches (db : DB) (pred : ImageRow → Option TagRow → Bool) (img : ImageRow) : Bool :=
  match db.tags.filter (fun t => t.image_id == img.id) with
  | [] => pred img none
  | tagRows => tagRows.any (fun t => pred img (some t))

/-- The `IndexedImage` that `Engine::query` builds from a result row
(engine.rs:349-366): base fields from `indexed_image_from_row`, the
visual hash from column 8, `tags` left empty (the JSON array returned by
`grouped_tags` fails the `as_object` check at line 359, so no tag is ever
inserted), and the `dist` column — the literal `0.0` on this path — from
column 10. -/
def resultImage (img : ImageRow) (hash : List ℕ) : IndexedImage :=
  { id := img.id, filename := img.filename, path := img.path,
    resolution := (img.image_width, img.image_height),
    thumbnail := img.thumbnail,
    thumbnail_resolution := (img.thumbnail_width, img.thumbnail_height),
    tags := [], phash := none, visual_hash := some hash,
    distance_from_query := some 0 }

/-- The candidate rows of `Engine::query`'s SELECT (engine.rs:318-339)
when no reference hash is present: `FROM images INNER JOIN
semantic_hashes ON images.id = semantic_hashes.image_id` (the INNER JOIN
drops every image without a hash row; `image_id` is the hash table's
primary key, hence `find?`), filtered by the WHERE clause.  Note the
statement contains no `max_distance` condition. -/
def textQueryCandidates (db : DB) (pred : ImageRow → Option TagRow → Bool) :
    List IndexedImage :=
  db.images.filterMap (fun img =>
    match db.semantic_hashes.find? (fun hr => hr.1 == img.id) with
    | none => none
    | some hr => if rowMatches db pred img then some (resultImage img hr.2) else none)

/-- The `IndexedImage` built by `query_by_image_hash_from_image`'s row
mapper (engine.rs:409-413): hash from column 8, `dist` from column 9. -/
def hashResultImage (img : ImageRow) (hash : List ℕ) (d : ℝ) : IndexedImage :=
  { id := img.id, filename := img.filename, path := img.path,
    resolution := (img.image_width, img.image_height),
    thumbnail := img.thumbnail,
    thumbnail_resolution := (img.thumbnail_width, img.thumbnail_height),
    tags := [], phash := none, visual_hash := some hash,
    distance_from_query := some d }

/-- The candidate rows of `query_by_image_hash_from_image`'s SELECT
(engine.rs:401-408): `FROM semantic_hashes INNER JOIN images`, with
`dist = cosine_distance(?, semantic_hashes.hash)` and the cutoff
`WHERE dist < ?` bound to `max_distance_from_query`. -/
noncomputable def hashQueryCandidates (db : DB) (ref : List ℕ) (maxd : ℝ) :
    List IndexedImage :=
  db.semantic_hashes.filterMap (fun hr =>
    match db.images.find? (fun img => img.id == hr.1) with
    | none => none
    | some img =>
        if cosine_distance ref hr.2 < maxd
        then some (hashResultImage img hr.2 (cosine_distance ref hr.2))
        else none)

/-- The `dist` value of a returned record. -/
noncomputable def distOf (r : IndexedImage) : ℝ := r.distance_from_query.getD 0

/-- Non-decreasing `dist`: the guarantee of `ORDER BY dist ASC`. -/
def distLE (r s : IndexedImage) : Prop := distOf r ≤ distOf s

/-- "Any two results with equal distance appear ordered by their
insertion id" — the tie-break order the specification asserts. -/
def tiesOrderedById (out : List IndexedImage) : Prop :=
  List.Pairwise (fun r s => distOf r = distOf s → r.id ≤ s.id) out

/-- The possible result lists of `Engine::query`'s statement: SQLite's
`ORDER BY dist ASC` pins only a non-decreasing arrangement of the
candidate rows (no secondary sort key), and `LIMIT 100` takes the first
hundred of that arrangement. -/
def isTextQueryOutput (db : DB) (pred : ImageRow → Option TagRow → Bool)
    (out : List IndexedImage) : Prop :=
  ∃ full, List.Perm full (textQueryCandidates db pred) ∧
    List.Pairwise distLE full ∧ out = full.take 100

/-- The possible result lists of `query_by_image_hash_from_image`'s
statement, in the same sense. -/
def isHashQueryOutput (db : DB) (ref : List ℕ) (maxd : ℝ)
    (out : List IndexedImage) : Prop :=
  ∃ full, List.Perm full (hashQueryCandidates db ref maxd) ∧
    List.Pairwise distLE full ∧ out = full.take 100

/-- The errors `Engine::query` can surface: a tokenizer failure
(propagated at engine.rs:301), a statement that fails to `prepare`
(empty WHERE clause), and rusqlite's `InvalidParameterCount` — the
statement built with a reference hash holds one `?` placeholder
(engine.rs:310) but `query_map` is called with `params![]`
(engine.rs:349; the `parameters` variable assigned at line 309 is never
passed). -/
inductive QueryError where
  | malformedQuery (e : TokError)
  | sqlPrepareFailure
  | invalidParameterCount
deriving DecidableEq

/-- The engine state touched by the query path (engine.rs:87-103):
`max_distance_from_query`, the cached last result set, and the cached
`similar:` reference image. -/
structure EngineState where
  db : DB
  maxDistanceFromQuery : ℝ
  cachedSearchResults : Option (List IndexedImage)
  cachedImageSearch : Option IndexedImage

/-- `Engine::query` (engine.rs:285-377) as a state transition.
Mirrors the source order: the empty-input bail-out (line 295) and the
tokenizer `?` (line 301) return before anything is mutated; then
`build_where_clause_from_parsed_query` updates the `similar:` cache
(line 302), the cached results are cleared (line 304), and the statement
runs — failing to prepare when the WHERE clause is empty, failing with
`InvalidParameterCount` when a reference hash put a `?` placeholder in
the statement, and otherwise (the `dist` column is the literal `0.0`)
caching the joined, filtered rows.  On the no-reference path every
ordering of the equal-`dist` rows is legal; the table arrangement stands
in for SQLite's choice. -/
noncomputable def queryStep (load : List Char → Option IndexedImage)
    (pred : ImageRow → Option TagRow → Bool) (st : EngineState)
    (input : List Char) : EngineState × Except QueryError Unit :=
  if input = [] then (st, Except.ok ())
  else
    match tokenize_query input with
    | Except.error e => (st, Except.error (QueryError.malformedQuery e))
    | Except.ok tokens =>
        let cached1 := updateSimilarCache load tokens st.cachedImageSearch
        let st1 := { st with cachedImageSearch := cached1, cachedSearchResults := none }
        if whereClauseEmpty tokens then (st1, Except.error QueryError.sqlPrepareFailure)
        else
          match cached1 with
          | some img =>
              match img.visual_hash with
              | some _ => (st1, Except.error QueryError.invalidParameterCount)
              | none =>
                  ({ st1 with
                      cachedSearchResults := some ((textQueryCandidates st.db pred).take 100) },
                    Except.ok ())
          | none =>
              ({ st1 with
                  cachedSearchResults := some ((textQueryCandidates st.db pred).take 100) },
                Except.ok ())

/-! ## Crawler queues (crawler.rs `crawl_globs_async`, lines 16-119)

Both pipeline channels are created with `crossbeam::channel::unbounded()`
(crawler.rs:18-19): a send appends to the queue and never blocks, and no
capacity is ever consulted.  `MAX_PENDING_FILEPATHS` (engine.rs:29) is
declared but referenced nowhere. -/

def MAX_PENDING_FILEPATHS : ℕ := 1000

/-- `tx.send(x)` on an unbounded crossbeam channel: append, no capacity
check, no blocking (crawler.rs:38). -/
def channelSend {α : Type} (q : List α) (x : α) : List α := q ++ [x]

/-- The discovery thread's effect on the file channel when no worker has
yet consumed anything: every discovered path is sent (crawler.rs:26-48). -/
def discoverAll {α : Type} (paths : List α) : List α :=
  paths.foldl channelSend []

/-! ## Concrete fixtures used by witnesses and counterexamples -/

/-- A transient record as `HashExtractor` would produce it (`id` still 0). -/
def exImg : IndexedImage :=
  { id := 0, filename := "a.png".toList, path := "/pics/a.png".toList,
    resolution := (1, 1), thumbnail := [], thumbnail_resolution := (1, 1),
    tags := [], phash := none, visual_hash := some [255],
    distance_from_query := none }

/-- A cached `similar:` reference whose stored path differs from the
requested one only by ASCII case. -/
def exCachedImg : IndexedImage :=
  { id := 0, filename := "A.PNG".toList, path := "/PICS/A.PNG".toList,
    resolution := (1, 1), thumbnail := [], thumbnail_resolution := (1, 1),
    tags := [], phash := none, visual_hash := some [255],
    distance_from_query := none }

/-- A loader standing in for `IndexedImage::from_file_path`: every path
yields a record carrying a visual hash, as `from_memory` always does. -/
def exLoad : List Char → Option IndexedImage := fun p =>
  some { id := 0, filename := p, path := p, resolution := (1, 1),
         thumbnail := [], thumbnail_resolution := (1, 1), tags := [],
         phash := some [0], visual_hash := some [255],
         distance_from_query := none }

/-- An engine state with a configured `max_distance_from_query` (the
settings slider assigns values in `0.0..=1.0`) and a previously cached
result set. -/
noncomputable def exState : EngineState :=
  { db := emptyDB, maxDistanceFromQuery := 1 / 2,
    cachedSearchResults := some [exCachedImg], cachedImageSearch := none }

/-! ## Helper lemmas -/

lemma foldl_channelSend {α : Type} (l : List α) :
    ∀ init : List α, l.foldl channelSend init = init ++ l := by
  induction l with
  | nil => intro init; simp
  | cons x t ih => intro init; simp [channelSend, ih]

lemma countPath_eq_zero_iff (db : DB) (p : List Char) :
    countPath db p = 0 ↔ existsByPath db p = false := by
  simp [countPath, existsByPath, List.length_eq_zero, List.filter_eq_nil_iff,
    List.any_eq_false]

lemma countPath_insert_self (db : DB) (img : IndexedImage) :
    countPath (insert_image db img) img.path = countPath db img.path + 1 := by
  simp [countPath, insert_image, List.filter_append]

/-! ## C1 -/

/-- C1 counterexample: `insert_image` performs no existence check and
`IMAGE_SCHEMA_V1` has no UNIQUE constraint on `path`, so a direct second
insert of an already-present canonical path leaves two persisted rows
with that path — not one. -/
theorem direct_double_insert_duplicates_path :
    countPath (insert_image (insert_image emptyDB exImg) exImg) ("/pics/a.png".toList) = 2 := by
  decide

/-- C1 (amended): dedup is enforced only by the drain step of
`start_reindexing` — it checks existence by path and inserts only when
absent, so feeding the same record through the drain step twice leaves
exactly one row with that path, and a drain step on an already-present
path is a no-op. -/
theorem drain_step_dedup (db : DB) (img : IndexedImage) :
    (existsByPath db img.path = true → drainStep db img = db) ∧
    (countPath db img.path = 0 →
      countPath (drainStep (drainStep db img) img) img.path = 1) := by
  constructor
  · intro h
    simp [drainStep, h]
  · intro h0
    have hex : existsByPath db img.path = false := (countPath_eq_zero_iff db img.path).mp h0
    have h1 : drainStep db img = insert_image db img := by simp [drainStep, hex]
    have hc1 : countPath (insert_image db img) img.path = 1 := by
      rw [countPath_insert_self, h0]
    have hex1 : existsByPath (insert_image db img) img.path = true := by
      by_contra hcon
      have : existsByPath (insert_image db img) img.path = false := by
        cases hx : existsByPath (insert_image db img) img.path
        · rfl
        · exact absurd hx hcon
      have := (countPath_eq_zero_iff (insert_image db img) img.path).mpr this
      omega
    rw [h1]
    have h2 : drainStep (insert_image db img) img = insert_image db img := by
      simp [drainStep, hex1]
    rw [h2, hc1]

/-- C1 witness: the drain-step dedup evaluated on a fresh store. -/
theorem drain_step_dedup_witness :
    countPath (drainStep (drainStep emptyDB exImg) exImg) exImg.path = 1 :=
  (drain_step_dedup emptyDB exImg).2 (by decide)

/-! ## C2 -/

/-- C2: at exactly the 32-byte phash size (phash.rs: 16x16 pixels = 32
bytes), two complementary vectors have total popcount 256, which the
source's `u8` accumulator wraps to 0 in a release build (and panics on in
a debug build): the code reports distance 0 for two maximally different
vectors, where the specified formula gives 1. -/
theorem hamming_u8_accumulator_wraps :
    hamming_distance (List.replicate 32 0) (List.replicate 32 255) = 0 ∧
    hammingSpec (List.replicate 32 0) (List.replicate 32 255) = 1 ∧
    List.replicate 32 (0 : ℕ) ≠ List.replicate 32 (255 : ℕ) := by
  have hwrap : (((List.replicate 32 (0 : ℕ)).zip (List.replicate 32 255)).map
      (fun p => popcount (Nat.xor p.1 p.2))).foldl (fun acc x => (acc + x) % 256) 0 = 0 := by
    decide
  have hsum : (((List.replicate 32 (0 : ℕ)).zip (List.replicate 32 255)).map
      (fun p => popcount (Nat.xor p.1 p.2))).sum = 256 := by
    decide
  refine ⟨?_, ?_, by decide⟩
  · simp only [hamming_distance, hwrap]
    norm_num
  · simp only [hammingSpec, hsum, List.length_replicate]
    norm_num

/-! ## C9 -/

/-- C9 counterexample: both pipeline channels are created with
`crossbeam::channel::unbounded()`, so after 1001 discoveries with no
consumer step the work queue holds 1001 items — above the declared (but
never used) `MAX_PENDING_FILEPATHS` capacity of 1000, with no producer
ever blocking. -/
theorem work_queue_exceeds_declared_capacity :
    (discoverAll (List.range 1001)).length = 1001 ∧
    MAX_PENDING_FILEPATHS < (discoverAll (List.range 1001)).length := by
  have h : discoverAll (List.range 1001) = List.range 1001 := by
    simpa [discoverAll] using foldl_channelSend (List.range 1001) []
  rw [h]
  simp [MAX_PENDING_FILEPATHS]

/-- C9 (amended): the queues are unbounded — a send always succeeds and
appends, so the queue holds every discovered-but-unconsumed item and its
length equals the number of sends, exceeding any fixed capacity once
enough items are discovered. -/
theorem unbounded_queue_holds_all_sends {α : Type} (paths : List α) :
    discoverAll paths = paths ∧ (discoverAll paths).length = paths.length := by
  have h : discoverAll paths = paths := by
    simpa [discoverAll] using foldl_channelSend paths []
  exact ⟨h, by rw [h]⟩

/-! ## C4 -/

lemma tokenizeGo_plain (cs : List Char) :
    ∀ active spans, (∀ c ∈ cs, c ≠ '"' ∧ c ≠ '\\') →
      tokenizeGo cs false false active spans = Except.ok (spans ++ splitAux cs active) := by
  induction cs with
  | nil =>
      intro active spans _
      by_cases hA : active = [] <;> simp [tokenizeGo, splitAux, hA]
  | cons c rest ih =>
      intro active spans h
      obtain ⟨hq, hb⟩ := h c (List.mem_cons_self c rest)
      have hrest : ∀ x ∈ rest, x ≠ '"' ∧ x ≠ '\\' := fun x hx => h x (List.mem_cons_of_mem c hx)
      by_cases hsp : c = ' '
      · subst hsp
        by_cases hA : active = []
        · simp [tokenizeGo, splitAux, hA, ih _ _ hrest]
        · simp [tokenizeGo, splitAux, hA, ih _ _ hrest]
      · simp [tokenizeGo, splitAux, hq, hb, hsp, ih _ _ hrest]

/-- C4 counterexample: the tokenizer's `match` breaks words only at the
space character `' '` (engine.rs:496), not at general whitespace: a tab
does not split, so `tokenize("abc\tdef")` is one token, where splitting
on whitespace would give two. -/
theorem tokenize_does_not_split_on_tab :
    tokenize_query ("abc\tdef".toList) = Except.ok [("abc\tdef".toList)] ∧
    ([("abc\tdef".toList)] : List (List Char)) ≠ ["abc".toList, "def".toList] := by
  exact ⟨rfl, by decide⟩

/-- C4 (amended): the tokenizer splits on the space character (not on all
whitespace) except inside double-quoted spans, with `\` escaping the next
character verbatim; on inputs without quotes and backslashes it agrees
with plain space-splitting, the claim's examples hold, an unterminated
quote reports the open-quote error and a trailing escape reports the
escape error. -/
theorem tokenize_space_splitting :
    (∀ cs : List Char, (∀ c ∈ cs, c ≠ '"' ∧ c ≠ '\\') →
      tokenize_query cs = Except.ok (splitOnSpace cs)) ∧
    tokenize_query ("abc def".toList) = Except.ok ["abc".toList, "def".toList] ∧
    tokenize_query ("abc \"def ghi\"".toList) = Except.ok ["abc".toList, "def ghi".toList] ∧
    tokenize_query ("abc \"unterminated".toList) = Except.error TokError.trailingOpenQuote ∧
    tokenize_query ("abc\\".toList) = Except.error TokError.trailingEscape := by
  refine ⟨?_, rfl, rfl, rfl, rfl⟩
  intro cs h
  have := tokenizeGo_plain cs [] [] h
  simpa [tokenize_query, splitOnSpace] using this

/-- C4 witness: the space-splitting characterization evaluated on a
concrete quote-free input. -/
theorem tokenize_space_splitting_witness :
    tokenize_query ("ab cd".toList) = Except.ok (splitOnSpace ("ab cd".toList)) :=
  tokenize_space_splitting.1 ("ab cd".toList) (by decide)

/-! ## C5 -/

/-- C5: the `similar:` branch reuses the cached reference untouched —
without invoking the embedding collaborator — exactly when a reference is
cached whose path equals the requested path up to ASCII case; it invokes
the collaborator and replaces the cache exactly when no reference is
cached or the cached path differs. -/
theorem similar_cache_memoization (cached : Option IndexedImage) (path : List Char)
    (load : List Char → Option IndexedImage) :
    ((∃ img, cached = some img ∧ eqIgnoreAsciiCase img.path path = true) →
      processSimilarToken cached path load = (cached, false)) ∧
    ((cached = none ∨ ∃ img, cached = some img ∧ eqIgnoreAsciiCase img.path path = false) →
      processSimilarToken cached path load = (load path, true)) := by
  constructor
  · rintro ⟨img, rfl, heq⟩
    simp [processSimilarToken, heq]
  · rintro (rfl | ⟨img, rfl, heq⟩)
    · simp [processSimilarToken]
    · simp [processSimilarToken, heq]

/-- C5 witness: re-requesting a cached reference path that differs only
by ASCII case leaves the cache untouched and does not invoke the loader. -/
theorem similar_cache_memoization_witness :
    processSimilarToken (some exCachedImg) ("/pics/a.png".toList) exLoad =
      (some exCachedImg, false) :=
  (similar_cache_memoization (some exCachedImg) ("/pics/a.png".toList) exLoad).1
    ⟨exCachedImg, rfl, by decide⟩

/-! ## C7 -/

/-- C7: `Engine::query` bails out before touching any state when the
input text is empty (engine.rs:295), and the tokenizer's `?`
(engine.rs:301) propagates a malformed-query error before the cached
result set is cleared, so in both cases the previous results (and the
cached reference) are retained unchanged. -/
theorem query_preserves_results_on_bad_input (load : List Char → Option IndexedImage)
    (pred : ImageRow → Option TagRow → Bool) (st : EngineState) (input : List Char) :
    (input = [] → queryStep load pred st input = (st, Except.ok ())) ∧
    (∀ e, tokenize_query input = Except.error e →
      queryStep load pred st input = (st, Except.error (QueryError.malformedQuery e))) := by
  constructor
  · intro h
    subst h
    simp [queryStep]
  · intro e he
    by_cases hi : input = []
    · rw [hi] at he
      simp [tokenize_query, tokenizeGo] at he
    · simp [queryStep, hi, he]

/-- C7 witness: a state holding previous results is returned unchanged
both for the empty query and for a query with an unterminated quote. -/
theorem query_preserves_results_witness :
    queryStep exLoad (fun _ _ => true) exState [] = (exState, Except.ok ()) ∧
    queryStep exLoad (fun _ _ => true) exState ("abc \"x".toList) =
      (exState, Except.error (QueryError.malformedQuery TokError.trailingOpenQuote)) :=
  ⟨(query_preserves_results_on_bad_input exLoad (fun _ _ => true) exState []).1 rfl,
   (query_preserves_results_on_bad_input exLoad (fun _ _ => true) exState
      ("abc \"x".toList)).2 TokError.trailingOpenQuote (by rfl)⟩

/-! ## C3 -/

/-- C3: a text query with a `similar:` term never returns a
cutoff-filtered result set.  The statement `Engine::query` builds
contains no `max_distance` condition at all, and when the reference hash
puts a `cosine_distance(?, ...)` placeholder into it, `query_map` is
called with `params![]` (engine.rs:349) although the statement expects
one parameter — the `parameters` variable assigned at engine.rs:309 is
never passed — so the query fails with rusqlite's
`InvalidParameterCount`, after the previous result cache has already
been cleared (engine.rs:304). -/
theorem text_similar_query_fails_parameter_count :
    (queryStep exLoad (fun _ _ => true) exState
        ("similar:/pics/a.png portrait".toList)).2 =
      Except.error QueryError.invalidParameterCount ∧
    (queryStep exLoad (fun _ _ => true) exState
        ("similar:/pics/a.png portrait".toList)).1.cachedSearchResults = none := by
  exact ⟨rfl, rfl⟩

/-! ## C10 -/

/-- C10: every record a text query can return joins an `images` row with
a `semantic_hashes` row (`INNER JOIN` at engine.rs:332), so whatever the
filter predicate, each returned record carries the non-null visual hash
stored for its id; an image without a visual-hash row can never appear. -/
theorem text_query_results_have_visual_hash (db : DB)
    (pred : ImageRow → Option TagRow → Bool) (out : List IndexedImage)
    (r : IndexedImage) (h : isTextQueryOutput db pred out) (hr : r ∈ out) :
    ∃ hash, (r.id, hash) ∈ db.semantic_hashes ∧ r.visual_hash = some hash := by
  obtain ⟨full, hperm, _, rfl⟩ := h
  have h1 : r ∈ full := List.take_subset 100 full hr
  have h2 : r ∈ textQueryCandidates db pred := hperm.subset h1
  rw [textQueryCandidates, List.mem_filterMap] at h2
  obtain ⟨img, _, hf⟩ := h2
  cases hfind : db.semantic_hashes.find? (fun hr2 => hr2.1 == img.id) with
  | none =>
      rw [hfind] at hf
      simp at hf
  | some hrow =>
      rw [hfind] at hf
      by_cases hm : rowMatches db pred img
      · rw [hm] at hf
        simp at hf
        have hid : hrow.1 = img.id := by
          have := List.find?_some hfind
          simpa using this
        have hmem : hrow ∈ db.semantic_hashes := List.mem_of_find?_eq_some hfind
        refine ⟨hrow.2, ?_, ?_⟩
        · have hrid : r.id = img.id := by rw [← hf]; simp [resultImage]
          rw [hrid, ← hid]
          exact hmem
        · rw [← hf]
          simp [resultImage]
      · simp [hm] at hf

/-- A persisted image row and a store holding it together with its
visual-hash row. -/
def exRow : ImageRow := ⟨1, "a.png".toList, "/pics/a.png".toList, 1, 1, [], 1, 1⟩

def exDb : DB := ⟨[exRow], [], [], [(1, [255])], []⟩

/-- C10 witness: the invariant applied to a one-image store. -/
theorem text_query_results_have_visual_hash_witness :
    ∃ hash, ((resultImage exRow [255]).id, hash) ∈ exDb.semantic_hashes ∧
      (resultImage exRow [255]).visual_hash = some hash :=
  text_query_results_have_visual_hash exDb (fun _ _ => true)
    [resultImage exRow [255]] (resultImage exRow [255])
    ⟨[resultImage exRow [255]], List.Perm.refl _, List.pairwise_singleton _ _, rfl⟩
    (by simp)

/-! ## C6 -/

lemma u8ToFloat_255 : u8ToFloat 255 = 1 := by
  simp [u8ToFloat]
  norm_num

lemma cosine_distance_255_self : cosine_distance [255] [255] = 0 := by
  have hmag : magnitudeProd [255] [255] = 1 := by
    simp [magnitudeProd, sqrtMag, sumSquares, u8ToFloat_255]
  have hdot : dotProd [255] [255] = 1 := by
    simp [dotProd, u8ToFloat_255]
  rw [cosine_distance, hmag, hdot, if_neg (by norm_num)]
  rw [max_eq_left (by norm_num)]
  norm_num

/-- A second persisted image with a later insertion id but the same
visual hash, and a store holding both. -/
def exRow2 : ImageRow := ⟨2, "b.png".toList, "/pics/b.png".toList, 1, 1, [], 1, 1⟩

def exDb2 : DB := ⟨[exRow, exRow2], [], [], [(1, [255]), (2, [255])], []⟩

lemma hashQueryCandidates_exDb2 :
    hashQueryCandidates exDb2 [255] 1 =
      [hashResultImage exRow [255] 0, hashResultImage exRow2 [255] 0] := by
  simp only [hashQueryCandidates, exDb2, List.filterMap_cons, List.filterMap_nil,
    cosine_distance_255_self]
  norm_num [exRow, exRow2, List.find?]
  simp

/-- C6 counterexample: with two equal-distance candidates, the list that
returns the later insertion id first is a legal output of the hash-query
statement (`ORDER BY dist ASC` pins no order among ties), so results are
not ordered by insertion id and the order is not deterministic. -/
theorem hash_query_ties_not_ordered_by_id :
    isHashQueryOutput exDb2 [255] 1
      [hashResultImage exRow2 [255] 0, hashResultImage exRow [255] 0] ∧
    ¬ tiesOrderedById
      [hashResultImage exRow2 [255] 0, hashResultImage exRow [255] 0] := by
  constructor
  · refine ⟨[hashResultImage exRow2 [255] 0, hashResultImage exRow [255] 0], ?_, ?_, rfl⟩
    · rw [hashQueryCandidates_exDb2]
      exact List.Perm.swap (hashResultImage exRow [255] 0) (hashResultImage exRow2 [255] 0) []
    · simp [distLE, distOf, hashResultImage]
  · intro h
    rw [tiesOrderedById, List.pairwise_cons] at h
    have h1 := h.1 (hashResultImage exRow [255] 0) (by simp)
    have h2 := h1 (by simp [distOf, hashResultImage])
    simp [hashResultImage, exRow, exRow2] at h2

/-- C6 (amended): every legal output of a distance-ranked query is sorted
in ascending order of `distance_from_query` (the `ORDER BY dist ASC`
guarantee), but the order among equal distances is unspecified — the SQL
has no secondary sort key — so no tie-break by insertion id (and hence no
determinism) is guaranteed. -/
theorem hash_query_sorted_by_distance (db : DB) (ref : List ℕ) (maxd : ℝ)
    (out : List IndexedImage) (h : isHashQueryOutput db ref maxd out) :
    List.Pairwise distLE out := by
  obtain ⟨full, _, hsort, rfl⟩ := h
  exact hsort.sublist (List.take_sublist 100 full)

/-- C6 witness: the ascending-distance guarantee on a two-row store. -/
theorem hash_query_sorted_by_distance_witness :
    List.Pairwise distLE [hashResultImage exRow [255] 0, hashResultImage exRow2 [255] 0] :=
  hash_query_sorted_by_distance exDb2 [255] 1
    [hashResultImage exRow [255] 0, hashResultImage exRow2 [255] 0]
    ⟨[hashResultImage exRow [255] 0, hashResultImage exRow2 [255] 0],
     by rw [hashQueryCandidates_exDb2],
     by simp [distLE, distOf, hashResultImage], rfl⟩

/-! ## C8 -/

lemma foldl_add_sq (l : List ℝ) :
    ∀ init : ℝ, l.foldl (fun i x => i + x * x) init = init + (l.map (fun x => x * x)).sum := by
  induction l with
  | nil => intro init; simp
  | cons x t ih =>
      intro init
      simp [ih]
      ring

lemma sumSquares_eq_sum (l : List ℝ) : sumSquares l = (l.map (fun x => x * x)).sum := by
  simp [sumSquares, foldl_add_sq]

/-- The square of a mapped byte is at least `(1/255)^2`: the numerator
`2*v - 255` is an odd integer, hence at least 1 in absolute value. -/
lemma sq_u8_lower (v : ℕ) (hv : v ≤ 255) :
    (1 : ℝ) / 65025 ≤ u8ToFloat v * u8ToFloat v := by
  have hform : u8ToFloat v = (2 * (v : ℝ) - 255) / 255 := by
    unfold u8ToFloat
    ring
  set k : ℤ := 2 * (v : ℤ) - 255 with hk
  have hk0 : k ≠ 0 := by omega
  have h1 : (1 : ℤ) ≤ k * k := by
    have hcase : k ≤ -1 ∨ 1 ≤ k := by omega
    rcases hcase with h | h <;> nlinarith
  have h1R : (1 : ℝ) ≤ (k : ℝ) * (k : ℝ) := by exact_mod_cast h1
  have hcast : (k : ℝ) = 2 * (v : ℝ) - 255 := by
    rw [hk]
    push_cast
    ring
  have hval : u8ToFloat v * u8ToFloat v = ((k : ℝ) * (k : ℝ)) / 65025 := by
    rw [hform, ← hcast]
    ring
  rw [hval]
  linarith

lemma sqrtMag_nil : sqrtMag [] = 0 := by
  simp [sqrtMag, sumSquares]

lemma sqrtMag_lower (a : List ℕ) (ha : ∀ v ∈ a, v ≤ 255) (hne : a ≠ []) :
    1 / 255 ≤ sqrtMag a := by
  obtain ⟨v, t, rfl⟩ := List.exists_cons_of_ne_nil hne
  have h1 : (1 : ℝ) / 65025 ≤ u8ToFloat v * u8ToFloat v :=
    sq_u8_lower v (ha v (List.mem_cons_self v t))
  have h2 : sumSquares ((v :: t).map u8ToFloat) =
      u8ToFloat v * u8ToFloat v + ((t.map u8ToFloat).map (fun x => x * x)).sum := by
    rw [List.map_cons, sumSquares_eq_sum, List.map_cons, List.sum_cons]
  have h3 : (0 : ℝ) ≤ ((t.map u8ToFloat).map (fun x => x * x)).sum := by
    apply List.sum_nonneg
    intro x hx
    rw [List.mem_map] at hx
    obtain ⟨y, _, rfl⟩ := hx
    exact mul_self_nonneg y
  have h4 : (1 : ℝ) / 65025 ≤ sumSquares ((v :: t).map u8ToFloat) := by
    rw [h2]
    linarith
  have h5 : Real.sqrt (1 / 65025) ≤ Real.sqrt (sumSquares ((v :: t).map u8ToFloat)) :=
    Real.sqrt_le_sqrt h4
  have h6 : Real.sqrt (1 / 65025) = 1 / 255 := by
    rw [show (1 : ℝ) / 65025 = (1 / 255) ^ 2 by norm_num, Real.sqrt_sq (by norm_num)]
  rw [sqrtMag]
  rw [h6] at h5
  exact h5

/-- C8: on byte vectors of equal length, the source's degenerate branch
(`magnitude < 1e-6`, where `magnitude` is the product of the two root
sums) fires exactly when either vector's magnitude is below `1e-6`
(which for byte vectors happens only when both are empty, every nonzero
byte vector having magnitude at least `1/255`); in the degenerate case
the distance is exactly 0, and otherwise it is
`1/max(sim, 1e-6) - 1` with both divisors strictly positive — no
division by zero and no NaN arises. -/
theorem cosine_degenerate_policy (a b : List ℕ)
    (ha : ∀ v ∈ a, v ≤ 255) (hb : ∀ v ∈ b, v ≤ 255) (hlen : a.length = b.length) :
    ((sqrtMag a < 1 / 1000000 ∨ sqrtMag b < 1 / 1000000) ↔
        magnitudeProd a b < 1 / 1000000) ∧
    ((sqrtMag a < 1 / 1000000 ∨ sqrtMag b < 1 / 1000000) → cosine_distance a b = 0) ∧
    (¬(sqrtMag a < 1 / 1000000 ∨ sqrtMag b < 1 / 1000000) →
      cosine_distance a b =
          1 / max (dotProd a b / magnitudeProd a b) (1 / 1000000) - 1 ∧
        0 < magnitudeProd a b ∧
        0 < max (dotProd a b / magnitudeProd a b) (1 / 1000000)) := by
  by_cases hA : a = []
  · have hB : b = [] := by
      rw [hA] at hlen
      exact List.length_eq_zero.mp hlen.symm
    subst hA
    subst hB
    have hz : sqrtMag ([] : List ℕ) = 0 := sqrtMag_nil
    have hm : magnitudeProd ([] : List ℕ) [] = 0 := by
      rw [magnitudeProd, hz]
      ring
    refine ⟨?_, ?_, ?_⟩
    · rw [hm, hz]
      constructor
      · intro _; norm_num
      · intro _; left; norm_num
    · intro _
      rw [cosine_distance, if_pos (by rw [hm]; norm_num)]
    · intro hcon
      exact absurd (Or.inl (by rw [hz]; norm_num)) hcon
  · have hBne : b ≠ [] := by
      intro hB
      rw [hB] at hlen
      exact hA (List.length_eq_zero.mp hlen)
    have hsa := sqrtMag_lower a ha hA
    have hsb := sqrtMag_lower b hb hBne
    have hsmall : (1 : ℝ) / 1000000 < 1 / 255 := by norm_num
    have hnA : ¬ (sqrtMag a < 1 / 1000000) := by intro h; linarith
    have hnB : ¬ (sqrtMag b < 1 / 1000000) := by intro h; linarith
    have hprod : (1 : ℝ) / 65025 ≤ magnitudeProd a b := by
      rw [magnitudeProd]
      have hnn : (0 : ℝ) ≤ sqrtMag b := le_trans (by norm_num) hsb
      calc (1 : ℝ) / 65025 = (1 / 255) * (1 / 255) := by norm_num
        _ ≤ sqrtMag a * sqrtMag b := by
            apply mul_le_mul hsa hsb (by norm_num) (le_trans (by norm_num) hsa)
    have hnprod : ¬ magnitudeProd a b < 1 / 1000000 := by
      intro h
      have : (1 : ℝ) / 1000000 < 1 / 65025 := by norm_num
      linarith
    refine ⟨?_, ?_, ?_⟩
    · exact iff_of_false (by rintro (h | h) <;> [exact hnA h; exact hnB h]) hnprod
    · rintro (h | h) <;> [exact absurd h hnA; exact absurd h hnB]
    · intro _
      refine ⟨by rw [cosine_distance, if_neg hnprod], by linarith, ?_⟩
      exact lt_of_lt_of_le (by norm_num) (le_max_right _ _)

/-- C8 witness: the branch analysis instantiated on the byte vectors
`[0]` and `[255]`. -/
theorem cosine_degenerate_policy_witness :
    ((sqrtMag [0] < 1 / 1000000 ∨ sqrtMag [255] < 1 / 1000000) ↔
        magnitudeProd [0] [255] < 1 / 1000000) ∧
    ((sqrtMag [0] < 1 / 1000000 ∨ sqrtMag [255] < 1 / 1000000) →
      cosine_distance [0] [255] = 0) ∧
    (¬(sqrtMag [0] < 1 / 1000000 ∨ sqrtMag [255] < 1 / 1000000) →
      cosine_distance [0] [255] =
          1 / max (dotProd [0] [255] / magnitudeProd [0] [255]) (1 / 1000000) - 1 ∧
        0 < magnitudeProd [0] [255] ∧
        0 < max (dotProd [0] [255] / magnitudeProd [0] [255]) (1 / 1000000)) :=
  cosine_degenerate_policy [0] [255] (by decide) (by decide) (by decide)

end Pixelbox
